import Mathlib

/-!
Verification of the OCRGO bounded-concurrency processing gateway.

The Go sources are shallowly embedded below:
* the classification postprocessing loop shared by the V1 handler
  (internal/presenter/ai/ai_imageToClassification.go, ClassifyImage) and the
  V2 handler (internal/presenter/ai/ai_image_classifier_v2.go, ClassifyImage);
* the OCR confidence filter shared by PaddXServi (ai_imageToText.go) and
  ExtractText (the V2 OCR handler);
* the preprocessImage normalization routine;
* the control flow of the four HTTP handlers, as functions of an oracle
  record describing what the external world (filesystem, external process,
  inference engine, multipart decoder) does, together with an explicit
  trace of filesystem and engine-environment effects;
* the buffered-channel semaphores used for admission control and the
  sync.Once guard used for engine-environment initialization.

Numeric scores are float32 and float64 in the source; only order
comparisons against the literal constants 4.5 and 0.85 are performed on
them, so they are modelled as rationals.
-/

set_option maxHeartbeats 1000000

namespace OCRGO

/-! ## Classification postprocessing (ClassifyImage V1 and V2, identical code) -/

/-- The fixed label table, from the classLabels literal in both handlers. -/
def classLabels : List String :=
  ["麵包", "乳製品", "點心", "蛋", "油炸食品", "肉", "義大利麵", "米", "海鮮", "湯", "蔬果"]

/-- The confidence threshold, the literal 4.5 in both handlers. -/
def threshold : ℚ := 4.5

/-- State of the postprocessing scan loop: the three mutable locals
allBelowThreshold, maxIndex, maxScore of the Go loop. -/
structure ScanState where
  allBelowThreshold : Bool
  maxIndex : Nat
  maxScore : ℚ
  deriving DecidableEq, Repr

/-- One iteration of the Go loop (for i, score := range outputData):
the threshold check (score >= threshold) clears allBelowThreshold, and the
strict comparison (score > maxScore) updates maxScore and maxIndex. -/
def scanStep (st : ScanState) (iv : Nat × ℚ) : ScanState where
  allBelowThreshold := if iv.2 ≥ threshold then false else st.allBelowThreshold
  maxIndex := if iv.2 > st.maxScore then iv.1 else st.maxIndex
  maxScore := if iv.2 > st.maxScore then iv.2 else st.maxScore

/-- The postprocessing decision of both ClassifyImage handlers.
The locals start as allBelowThreshold = true, maxIndex = 0,
maxScore = outputData[0]; the loop runs over the indexed score vector;
the result is the sentinel when every score stayed below the threshold
and otherwise classLabels[maxIndex].  The read outputData[0] and the
lookup classLabels[maxIndex] panic when out of bounds, hence Option. -/
def classifyDecision : List ℚ → Option String
  | [] => none
  | s0 :: rest =>
    let final := ((s0 :: rest).enum).foldl scanStep ⟨true, 0, s0⟩
    if final.allBelowThreshold then some "無法辨識"
    else classLabels[final.maxIndex]?

/-! Specification-side definitions, written from the words of the spec:
the maximum of the scores and the first index achieving it. -/

/-- Maximum of a list of scores, accumulated from a seed. -/
def listMax (m : ℚ) : List ℚ → ℚ
  | [] => m
  | s :: rest => listMax (max m s) rest

/-- Index of the first occurrence of a value in a list. -/
def firstIdxOf (m : ℚ) : List ℚ → Nat
  | [] => 0
  | s :: rest => if s = m then 0 else firstIdxOf m rest + 1

/-- The first index achieving the maximum score (spec: the index of the
maximum score, first index wins ties). -/
def firstMaxIndex : List ℚ → Nat
  | [] => 0
  | s0 :: rest => firstIdxOf (listMax s0 rest) (s0 :: rest)

/-- Prop-level statement that index i is the first position of a maximal
score: every score is at most scores[i], and every earlier score is
strictly below scores[i]. -/
def isFirstMax (scores : List ℚ) (i : Nat) : Prop :=
  ∃ h : i < scores.length,
    (∀ j, (hj : j < scores.length) → scores.get ⟨j, hj⟩ ≤ scores.get ⟨i, h⟩) ∧
    (∀ j, (hj : j < i) → scores.get ⟨j, Nat.lt_trans hj h⟩ < scores.get ⟨i, h⟩)

theorem scanStep_allBelow (st : ScanState) (iv : Nat × ℚ) :
    (scanStep st iv).allBelowThreshold
      = (st.allBelowThreshold && decide (iv.2 < threshold)) := by
  show (if iv.2 ≥ threshold then false else st.allBelowThreshold) = _
  rcases le_or_lt threshold iv.2 with h | h
  · simp [not_lt.mpr h, h]
  · simp [not_le.mpr h, h]

theorem scanStep_maxScore (st : ScanState) (iv : Nat × ℚ) :
    (scanStep st iv).maxScore = max st.maxScore iv.2 := by
  show (if iv.2 > st.maxScore then iv.2 else st.maxScore) = _
  rcases lt_or_le st.maxScore iv.2 with h | h
  · rw [if_pos h, max_eq_right h.le]
  · rw [if_neg (not_lt.mpr h), max_eq_left h]

theorem scanStep_maxIndex (st : ScanState) (iv : Nat × ℚ) :
    (scanStep st iv).maxIndex
      = if st.maxScore < iv.2 then iv.1 else st.maxIndex := rfl

theorem enumFrom_cons (n : Nat) (s : ℚ) (rest : List ℚ) :
    List.enumFrom n (s :: rest) = (n, s) :: List.enumFrom (n + 1) rest := rfl

theorem foldl_scanStep_allBelow (l : List ℚ) (n : Nat) (st : ScanState) :
    ((List.enumFrom n l).foldl scanStep st).allBelowThreshold
      = (st.allBelowThreshold && l.all (fun s => decide (s < threshold))) := by
  induction l generalizing n st with
  | nil => simp [List.enumFrom]
  | cons s rest ih =>
    rw [enumFrom_cons, List.foldl_cons, ih, scanStep_allBelow, List.all_cons,
      Bool.and_assoc]

theorem foldl_scanStep_maxScore (l : List ℚ) (n : Nat) (st : ScanState) :
    ((List.enumFrom n l).foldl scanStep st).maxScore = listMax st.maxScore l := by
  induction l generalizing n st with
  | nil => simp [List.enumFrom, listMax]
  | cons s rest ih =>
    rw [enumFrom_cons, List.foldl_cons, ih, listMax, scanStep_maxScore]

theorem le_listMax (m : ℚ) (l : List ℚ) : m ≤ listMax m l := by
  induction l generalizing m with
  | nil => simp [listMax]
  | cons s rest ih => exact le_trans (le_max_left m s) (ih (max m s))

theorem listMax_of_all_le (m : ℚ) (l : List ℚ)
    (h : ∀ x ∈ l, x ≤ m) : listMax m l = m := by
  induction l generalizing m with
  | nil => rfl
  | cons s rest ih =>
    rw [listMax, max_eq_left (h s (List.mem_cons_self s rest))]
    exact ih m (fun x hx => h x (List.mem_cons_of_mem s hx))

theorem mem_le_listMax (x : ℚ) (l : List ℚ) : ∀ m, x ∈ l → x ≤ listMax m l := by
  induction l with
  | nil => intro m hx; cases hx
  | cons s rest ih =>
    intro m hx
    rw [listMax]
    rcases List.mem_cons.mp hx with h | h
    · subst h; exact le_trans (le_max_right m x) (le_listMax _ rest)
    · exact ih (max m s) h

theorem lt_listMax_of_not_all (m : ℚ) (l : List ℚ)
    (h : ¬ l.all (fun s => decide (s ≤ m)) = true) : m < listMax m l := by
  rw [List.all_eq_true] at h
  push_neg at h
  obtain ⟨x, hx, hxm⟩ := h
  have hmx : m < x := by
    by_contra hc
    exact hxm (decide_eq_true (not_lt.mp hc))
  exact lt_of_lt_of_le hmx (mem_le_listMax x l m hx)

theorem firstMaxIndex_cons (s0 : ℚ) (rest : List ℚ) :
    firstMaxIndex (s0 :: rest) =
      if rest.all (fun x => decide (x ≤ s0)) then 0
      else 1 + firstIdxOf (listMax s0 rest) rest := by
  rw [firstMaxIndex]
  by_cases h2 : rest.all (fun x => decide (x ≤ s0)) = true
  · have hM : listMax s0 rest = s0 := by
      apply listMax_of_all_le
      intro x hx
      have hd := List.all_eq_true.mp h2 x hx
      rwa [decide_eq_true_eq] at hd
    rw [if_pos h2, hM]
    simp [firstIdxOf]
  · have hM : s0 < listMax s0 rest := lt_listMax_of_not_all s0 rest h2
    rw [if_neg h2, firstIdxOf, if_neg (ne_of_lt hM)]
    omega

theorem foldl_scanStep_maxIndex (l : List ℚ) (n : Nat) (st : ScanState) :
    ((List.enumFrom n l).foldl scanStep st).maxIndex =
      if l.all (fun s => decide (s ≤ st.maxScore)) then st.maxIndex
      else n + firstIdxOf (listMax st.maxScore l) l := by
  induction l generalizing n st with
  | nil => simp [List.enumFrom]
  | cons s rest ih =>
    rw [enumFrom_cons, List.foldl_cons, ih, scanStep_maxScore, scanStep_maxIndex,
      List.all_cons]
    rcases lt_or_le st.maxScore s with hms | hms
    · have h1 : decide (s ≤ st.maxScore) = false :=
        decide_eq_false (not_le.mpr hms)
      -- the first element strictly exceeds the seed, so the tail analysis
      -- of firstMaxIndex_cons applies
      rw [max_eq_right hms.le, if_pos hms, h1, Bool.false_and,
        if_neg Bool.false_ne_true, listMax, max_eq_right hms.le,
        show firstIdxOf (listMax s rest) (s :: rest) = firstMaxIndex (s :: rest)
          from rfl,
        firstMaxIndex_cons]
      by_cases h2 : rest.all (fun x => decide (x ≤ s)) = true
      · rw [if_pos h2, if_pos h2]; omega
      · rw [if_neg h2, if_neg h2]; omega
    · have h1 : decide (s ≤ st.maxScore) = true := decide_eq_true hms
      rw [max_eq_left hms, if_neg (not_lt.mpr hms), h1, Bool.true_and, listMax,
        max_eq_left hms]
      by_cases h2 : rest.all (fun x => decide (x ≤ st.maxScore)) = true
      · rw [if_pos h2, if_pos h2]
      · have hM : st.maxScore < listMax st.maxScore rest :=
          lt_listMax_of_not_all st.maxScore rest h2
        have hne : s ≠ listMax st.maxScore rest :=
          ne_of_lt (lt_of_le_of_lt hms hM)
        rw [if_neg h2, if_neg h2, firstIdxOf, if_neg hne]
        omega

/-- Closed form of the decision loop on a nonempty score vector: it returns
the sentinel if every score is below the threshold and otherwise the label
at the first index achieving the maximum score. -/
theorem classifyDecision_cons (s0 : ℚ) (rest : List ℚ) :
    classifyDecision (s0 :: rest) =
      if (s0 :: rest).all (fun s => decide (s < threshold)) then some "無法辨識"
      else classLabels[firstMaxIndex (s0 :: rest)]? := by
  have h1 : (scanStep ⟨true, 0, s0⟩ (0, s0)).allBelowThreshold
      = decide (s0 < threshold) := by
    rw [scanStep_allBelow]
    simp
  have h2 : (scanStep ⟨true, 0, s0⟩ (0, s0)).maxScore = s0 := by
    rw [scanStep_maxScore]
    simp
  have h3 : (scanStep ⟨true, 0, s0⟩ (0, s0)).maxIndex = 0 := by
    rw [scanStep_maxIndex]
    simp
  rw [classifyDecision]
  show (if _ then some "無法辨識" else _) = _
  rw [show (s0 :: rest).enum = (0, s0) :: List.enumFrom 1 rest from rfl,
    List.foldl_cons, foldl_scanStep_allBelow, foldl_scanStep_maxIndex,
    h1, h2, h3, List.all_cons, firstMaxIndex_cons]

theorem mem_cons_le_listMax (x s0 : ℚ) (rest : List ℚ) (hx : x ∈ s0 :: rest) :
    x ≤ listMax s0 rest := by
  rcases List.mem_cons.mp hx with h | h
  · subst h
    exact le_listMax x rest
  · exact mem_le_listMax x rest s0 h

theorem listMax_mem_cons (s0 : ℚ) (rest : List ℚ) :
    listMax s0 rest ∈ s0 :: rest := by
  induction rest generalizing s0 with
  | nil => simp [listMax]
  | cons s rest ih =>
    rw [listMax]
    rcases List.mem_cons.mp (ih (max s0 s)) with h | h
    · rcases max_cases s0 s with ⟨he, -⟩ | ⟨he, -⟩
      · rw [h, he]
        exact List.mem_cons_self _ _
      · rw [h, he]
        exact List.mem_cons_of_mem _ (List.mem_cons_self _ _)
    · exact List.mem_cons_of_mem _ (List.mem_cons_of_mem _ h)

theorem firstIdxOf_lt_length (x : ℚ) (l : List ℚ) (hx : x ∈ l) :
    firstIdxOf x l < l.length := by
  induction l with
  | nil => cases hx
  | cons s rest ih =>
    rw [firstIdxOf]
    by_cases h : s = x
    · simp [h]
    · rcases List.mem_cons.mp hx with h2 | h2
      · exact absurd h2.symm h
      · rw [if_neg h]
        have := ih h2
        simp only [List.length_cons]
        omega

theorem getElem?_firstIdxOf (x : ℚ) (l : List ℚ) (hx : x ∈ l) :
    l[firstIdxOf x l]? = some x := by
  induction l with
  | nil => cases hx
  | cons s rest ih =>
    rw [firstIdxOf]
    by_cases hs : s = x
    · rw [if_pos hs]
      simp [hs]
    · rcases List.mem_cons.mp hx with h2 | h2
      · exact absurd h2.symm hs
      · rw [if_neg hs]
        simpa using ih h2

theorem ne_of_lt_firstIdxOf (x y : ℚ) (l : List ℚ) (j : Nat)
    (hj : j < firstIdxOf x l) (hy : l[j]? = some y) : y ≠ x := by
  induction l generalizing j with
  | nil => simp at hy
  | cons s rest ih =>
    rw [firstIdxOf] at hj
    by_cases hs : s = x
    · rw [if_pos hs] at hj
      omega
    · rw [if_neg hs] at hj
      cases j with
      | zero =>
        have hys : y = s := by simpa using hy.symm
        rw [hys]
        exact hs
      | succ j =>
        rw [List.getElem?_cons_succ] at hy
        exact ih j (by omega) hy

/-- C1: Classification decision: for every score vector of length 11 and
threshold 4.5, if no score is at least 4.5 the result is the sentinel
unrecognized label 無法辨識; otherwise the result is the label at the index
of the maximum score, and because the comparison is strictly greater, the
first index achieving the maximum wins ties. -/
theorem classify_decision_c1 (scores : List ℚ) (h11 : scores.length = 11) :
    ((∀ s ∈ scores, s < threshold) →
      classifyDecision scores = some "無法辨識") ∧
    ((∃ s ∈ scores, threshold ≤ s) →
      ∃ hlt : firstMaxIndex scores < classLabels.length,
        classifyDecision scores
            = some (classLabels.get ⟨firstMaxIndex scores, hlt⟩) ∧
        isFirstMax scores (firstMaxIndex scores)) := by
  rcases scores with _ | ⟨s0, rest⟩
  · simp at h11
  constructor
  · intro hall
    rw [classifyDecision_cons, if_pos]
    exact List.all_eq_true.mpr (fun x hx => decide_eq_true (hall x hx))
  · intro hex
    have hcond : ¬ (s0 :: rest).all (fun s => decide (s < threshold)) = true := by
      intro hc
      obtain ⟨s, hs, hθ⟩ := hex
      have := List.all_eq_true.mp hc s hs
      rw [decide_eq_true_eq] at this
      exact absurd hθ (not_le.mpr this)
    have hMem : listMax s0 rest ∈ s0 :: rest := listMax_mem_cons s0 rest
    have hidx : firstMaxIndex (s0 :: rest)
        = firstIdxOf (listMax s0 rest) (s0 :: rest) := rfl
    have hlt : firstMaxIndex (s0 :: rest) < (s0 :: rest).length := by
      rw [hidx]
      exact firstIdxOf_lt_length _ _ hMem
    have hlab : classLabels.length = 11 := rfl
    have hlt2 : firstMaxIndex (s0 :: rest) < classLabels.length := by
      rw [hlab, ← h11]
      exact hlt
    have hsome : (s0 :: rest)[firstMaxIndex (s0 :: rest)]?
        = some (listMax s0 rest) := by
      rw [hidx]
      exact getElem?_firstIdxOf _ _ hMem
    have hgetM : (s0 :: rest).get ⟨firstMaxIndex (s0 :: rest), hlt⟩
        = listMax s0 rest := by
      have h2 := List.getElem?_eq_getElem hlt
      rw [hsome] at h2
      rw [List.get_eq_getElem]
      exact (Option.some.injEq _ _ ▸ h2).symm
    refine ⟨hlt2, ?_, ?_⟩
    · rw [classifyDecision_cons, if_neg hcond]
      rw [List.getElem?_eq_getElem hlt2, List.get_eq_getElem]
    · refine ⟨hlt, ?_, ?_⟩
      · intro j hj
        rw [hgetM]
        exact mem_cons_le_listMax _ _ _ (List.get_mem _ _ _)
      · intro j hj
        have hjlen : j < (s0 :: rest).length := Nat.lt_trans hj hlt
        have hget : (s0 :: rest)[j]?
            = some ((s0 :: rest).get ⟨j, hjlen⟩) := by
          rw [List.getElem?_eq_getElem hjlen, List.get_eq_getElem]
        have hne := ne_of_lt_firstIdxOf (listMax s0 rest) _ _ j
          (hidx ▸ hj) hget
        rw [hgetM]
        exact lt_of_le_of_ne
          (mem_cons_le_listMax _ _ _ (List.get_mem _ _ _)) hne

/-- C1 witness: the tie case of the spec: scores 5,5,0,... give the label
at index 0 (first-max rule), namely 麵包. -/
theorem classify_decision_c1_witness :
    ([(5 : ℚ), 5, 0, 0, 0, 0, 0, 0, 0, 0, 0].length = 11) ∧
    classifyDecision [(5 : ℚ), 5, 0, 0, 0, 0, 0, 0, 0, 0, 0]
      = some "麵包" := by
  refine ⟨rfl, ?_⟩
  obtain ⟨-, h⟩ :=
    classify_decision_c1 [(5 : ℚ), 5, 0, 0, 0, 0, 0, 0, 0, 0, 0] rfl
  obtain ⟨hlt, heq, -⟩ := h ⟨5, by simp, by norm_num [threshold]⟩
  rw [heq]
  rfl

/-- C10: the classification postprocessing is total for the declared
output shape: for every score vector of length 11 the decision is defined
(the read of element 0 and the lookup classLabels[maxIndex] are in
bounds); the empty score vector is the only shape whose first-element read
is undefined. -/
theorem classify_total_c10 :
    (∀ scores : List ℚ, scores.length = 11 →
      ∃ r, classifyDecision scores = some r) ∧
    classifyDecision ([] : List ℚ) = none := by
  constructor
  · intro scores h11
    rcases scores with _ | ⟨s0, rest⟩
    · simp at h11
    rw [classifyDecision_cons]
    by_cases h : (s0 :: rest).all (fun s => decide (s < threshold)) = true
    · exact ⟨_, if_pos h⟩
    · rw [if_neg h]
      have hMem : listMax s0 rest ∈ s0 :: rest := listMax_mem_cons s0 rest
      have hlt : firstMaxIndex (s0 :: rest) < (s0 :: rest).length :=
        firstIdxOf_lt_length _ _ hMem
      have hlt2 : firstMaxIndex (s0 :: rest) < classLabels.length := by
        rw [show classLabels.length = 11 from rfl, ← h11]
        exact hlt
      rw [List.getElem?_eq_getElem hlt2]
      exact ⟨_, rfl⟩
  · rfl

/-- C10 witness: the all-ones score vector of length 11 yields a defined
decision. -/
theorem classify_total_c10_witness :
    (classifyDecision [(1 : ℚ), 1, 1, 1, 1, 1, 1, 1, 1, 1, 1]).isSome
      = true := by
  obtain ⟨r, hr⟩ :=
    classify_total_c10.1 [(1 : ℚ), 1, 1, 1, 1, 1, 1, 1, 1, 1, 1] rfl
  rw [hr]
  rfl

/-! ## OCR confidence filter (ExtractText V2 and PaddXServi V1, identical loop) -/

/-- A dynamically typed JSON value as produced by json.Unmarshal into
interface slices: a float64 number, a string, or anything else. -/
inductive JVal where
  | num (q : ℚ)
  | str (s : String)
  | other
  deriving DecidableEq, Repr

/-- The OCR score cutoff, the literal 0.85 in both OCR handlers. -/
def recScoreCutoff : ℚ := 0.85

/-- One iteration of the filtering loop: keep texts[i] when the score at i
is a float64 of at least 0.85, the index i is within texts, and texts[i]
is a string; otherwise contribute nothing. -/
def keepText (texts : List JVal) (i : Nat) (s : JVal) : List String :=
  match s with
  | JVal.num q =>
    if q ≥ recScoreCutoff then
      match texts.get? i with
      | some (JVal.str t) => [t]
      | _ => []
    else []
  | _ => []

/-- The filtering loop (for i, s := range scores) accumulating
filteredTexts in index order. -/
def filterTextsAux (texts : List JVal) : Nat → List JVal → List String
  | _, [] => []
  | i, s :: rest => keepText texts i s ++ filterTextsAux texts (i + 1) rest

/-- The confidence filter of both OCR handlers, iterating over rec_scores
with paired lookups into rec_texts. -/
def filterTexts (recScores recTexts : List JVal) : List String :=
  filterTextsAux recTexts 0 recScores

theorem keepText_nil (i : Nat) (s : JVal) : keepText [] i s = [] := by
  rcases s with q | t
  · show (if q ≥ recScoreCutoff then ([] : List String) else []) = []
    exact ite_self []
  · rfl
  · rfl

theorem filterTextsAux_nilTexts (i : Nat) (scores : List JVal) :
    filterTextsAux [] i scores = [] := by
  induction scores generalizing i with
  | nil => rfl
  | cons s rest ih =>
    rw [filterTextsAux, keepText_nil, ih, List.nil_append]

theorem filterTextsAux_shift (t : JVal) (texts : List JVal) (i : Nat)
    (scores : List JVal) :
    filterTextsAux (t :: texts) (i + 1) scores
      = filterTextsAux texts i scores := by
  induction scores generalizing i with
  | nil => rfl
  | cons s rest ih =>
    rw [filterTextsAux, filterTextsAux, ih]
    have hk : keepText (t :: texts) (i + 1) s = keepText texts i s := by
      rcases s with q | x
      · show (if _ then _ else _) = (if _ then _ else _)
        rw [List.get?_cons_succ]
      · rfl
      · rfl
    rw [hk]

theorem filterTexts_eq_filter_zip (recScores : List ℚ) :
    ∀ recTexts : List String,
      filterTexts (recScores.map JVal.num) (recTexts.map JVal.str)
        = ((recScores.zip recTexts).filter
            (fun p => decide (recScoreCutoff ≤ p.1))).map Prod.snd := by
  induction recScores with
  | nil => intro recTexts; rfl
  | cons q qs ih =>
    intro recTexts
    rcases recTexts with _ | ⟨t, ts⟩
    · show filterTextsAux [] 0 (List.map JVal.num (q :: qs)) = _
      rw [filterTextsAux_nilTexts]
      rfl
    · show keepText (List.map JVal.str (t :: ts)) 0 (JVal.num q)
          ++ filterTextsAux (List.map JVal.str (t :: ts)) (0 + 1)
              (List.map JVal.num qs) = _
      rw [show List.map JVal.str (t :: ts)
            = JVal.str t :: List.map JVal.str ts from rfl,
        filterTextsAux_shift,
        show filterTextsAux (List.map JVal.str ts) 0 (List.map JVal.num qs)
            = filterTexts (List.map JVal.num qs) (List.map JVal.str ts)
          from rfl,
        ih ts,
        show keepText (JVal.str t :: List.map JVal.str ts) 0 (JVal.num q)
            = if q ≥ recScoreCutoff then [t] else [] from rfl,
        List.zip_cons_cons, List.filter_cons]
      by_cases hq : recScoreCutoff ≤ q
      · simp [hq, ge_iff_le]
      · simp [hq, ge_iff_le]

/-- C2: the derived filteredTexts of the OCR handlers contains exactly the
texts whose paired score is at least 0.85, in original index order; an
index present in one sequence but not the other contributes nothing (the
zip truncates to the shorter of the two).  The second conjunct is the
concrete example of the spec. -/
theorem filter_texts_c2 :
    (∀ (recScores : List ℚ) (recTexts : List String),
      filterTexts (recScores.map JVal.num) (recTexts.map JVal.str)
        = ((recScores.zip recTexts).filter
            (fun p => decide (recScoreCutoff ≤ p.1))).map Prod.snd) ∧
    filterTexts [JVal.num 0.9, JVal.num 0.5, JVal.num 0.85]
        [JVal.str "a", JVal.str "b", JVal.str "c"] = ["a", "c"] := by
  refine ⟨filterTexts_eq_filter_zip, ?_⟩
  have hlit : [JVal.num 0.9, JVal.num 0.5, JVal.num 0.85]
      = List.map JVal.num [(0.9 : ℚ), 0.5, 0.85] := rfl
  have hlit2 : [JVal.str "a", JVal.str "b", JVal.str "c"]
      = List.map JVal.str ["a", "b", "c"] := rfl
  rw [hlit, hlit2, filterTexts_eq_filter_zip]
  have h1 : recScoreCutoff ≤ (0.9 : ℚ) := by norm_num [recScoreCutoff]
  have h2 : ¬ recScoreCutoff ≤ (0.5 : ℚ) := by norm_num [recScoreCutoff]
  have h3 : recScoreCutoff ≤ (0.85 : ℚ) := by norm_num [recScoreCutoff]
  simp [List.zip_cons_cons, List.filter_cons, h1, h2, h3]

/-! ## Image preprocessing (preprocessImage, shared by both classifiers) -/

/-- A pixel sample as returned by the RGBA method of the Go image
interface: four 16-bit channel values in 0..65535. -/
structure RGBA16 where
  r : Nat
  g : Nat
  b : Nat
  a : Nat
  deriving DecidableEq, Repr

/-- An abstract decoded image: the At method of the Go image interface. -/
abbrev Img : Type := Nat → Nat → RGBA16

/-- Write to a list at an index, leaving the list unchanged out of
bounds; all writes performed by preprocessImage are in bounds. -/
def setAt : List ℚ → Nat → ℚ → List ℚ
  | [], _, _ => []
  | _ :: rest, 0, v => v :: rest
  | x :: rest, i + 1, v => x :: setAt rest i v

/-- The loop body of preprocessImage at pixel (x, y): the three channel
writes output[index], output[index+256*256], output[index+2*256*256] with
index = y*width+x, each 16-bit sample first shifted right by 8 and then
divided by 255.0. -/
def writePixel (img : Img) (width : Nat) (buf : List ℚ) (y x : Nat) : List ℚ :=
  let p := img x y
  let index := y * width + x
  let b1 := setAt buf index ((((p.r >>> 8 : Nat)) : ℚ) / 255)
  let b2 := setAt b1 (index + 256 * 256) ((((p.g >>> 8 : Nat)) : ℚ) / 255)
  setAt b2 (index + 2 * 256 * 256) ((((p.b >>> 8 : Nat)) : ℚ) / 255)

/-- preprocessImage: allocates a zero buffer of size 1*3*256*256 and loops
y over the height and x over the width, writing the three channel planes
of each pixel. -/
def preprocessImage (img : Img) (width height : Nat) : List ℚ :=
  (List.range height).foldl
    (fun buf y =>
      (List.range width).foldl (fun b x => writePixel img width b y x) buf)
    (List.replicate (1 * 3 * (256 * 256)) 0)

theorem setAt_length (l : List ℚ) (i : Nat) (v : ℚ) :
    (setAt l i v).length = l.length := by
  induction l generalizing i with
  | nil => rfl
  | cons x rest ih =>
    cases i with
    | zero => rfl
    | succ j => simp [setAt, ih]

theorem get?_setAt_self (l : List ℚ) (i : Nat) (v : ℚ) (h : i < l.length) :
    (setAt l i v).get? i = some v := by
  induction l generalizing i with
  | nil => simp at h
  | cons x rest ih =>
    cases i with
    | zero => rfl
    | succ j =>
      show (setAt rest j v).get? j = some v
      exact ih j (by simp only [List.length_cons] at h; omega)

theorem get?_setAt_other (l : List ℚ) (i j : Nat) (v : ℚ) (h : i ≠ j) :
    (setAt l i v).get? j = l.get? j := by
  induction l generalizing i j with
  | nil => rfl
  | cons x rest ih =>
    cases i with
    | zero =>
      cases j with
      | zero => exact absurd rfl h
      | succ k => rfl
    | succ i2 =>
      cases j with
      | zero => rfl
      | succ k =>
        show (setAt rest i2 v).get? k = rest.get? k
        exact ih i2 k (fun he => h (by rw [he]))

theorem writePixel_length (img : Img) (w : Nat) (b : List ℚ) (y x : Nat) :
    (writePixel img w b y x).length = b.length := by
  simp [writePixel, setAt_length]

theorem writePixel_get?_other (img : Img) (w : Nat) (b : List ℚ) (y x i : Nat)
    (h1 : i ≠ y * w + x) (h2 : i ≠ y * w + x + 256 * 256)
    (h3 : i ≠ y * w + x + 2 * 256 * 256) :
    (writePixel img w b y x).get? i = b.get? i := by
  show (setAt (setAt (setAt b _ _) _ _) _ _).get? i = b.get? i
  rw [get?_setAt_other _ _ _ _ (Ne.symm h3), get?_setAt_other _ _ _ _ (Ne.symm h2),
    get?_setAt_other _ _ _ _ (Ne.symm h1)]

theorem writePixel_get?_self (img : Img) (b : List ℚ) (y x : Nat)
    (hx : x < 256) (hy : y < 256) (hlen : b.length = 1 * 3 * (256 * 256)) :
    (writePixel img 256 b y x).get? (y * 256 + x)
        = some ((((img x y).r >>> 8 : Nat) : ℚ) / 255) ∧
    (writePixel img 256 b y x).get? (y * 256 + x + 256 * 256)
        = some ((((img x y).g >>> 8 : Nat) : ℚ) / 255) ∧
    (writePixel img 256 b y x).get? (y * 256 + x + 2 * 256 * 256)
        = some ((((img x y).b >>> 8 : Nat) : ℚ) / 255) := by
  have hlen1 : (setAt b (y * 256 + x) ((((img x y).r >>> 8 : Nat) : ℚ) / 255)).length
      = b.length := setAt_length _ _ _
  have hlen2 : (setAt (setAt b (y * 256 + x) ((((img x y).r >>> 8 : Nat) : ℚ) / 255))
      (y * 256 + x + 256 * 256) ((((img x y).g >>> 8 : Nat) : ℚ) / 255)).length
      = b.length := by rw [setAt_length, hlen1]
  refine ⟨?_, ?_, ?_⟩
  · show (setAt (setAt (setAt b _ _) _ _) _ _).get? (y * 256 + x) = _
    rw [get?_setAt_other _ _ _ _ (by omega), get?_setAt_other _ _ _ _ (by omega),
      get?_setAt_self _ _ _ (by rw [hlen]; omega)]
  · show (setAt (setAt (setAt b _ _) _ _) _ _).get? (y * 256 + x + 256 * 256) = _
    rw [get?_setAt_other _ _ _ _ (by omega),
      get?_setAt_self _ _ _ (by rw [hlen1, hlen]; omega)]
  · show (setAt (setAt (setAt b _ _) _ _) _ _).get? (y * 256 + x + 2 * 256 * 256) = _
    rw [get?_setAt_self _ _ _ (by rw [hlen2, hlen]; omega)]

theorem innerFold_length (img : Img) (y : Nat) (xs : List Nat) (b : List ℚ) :
    (xs.foldl (fun bb x => writePixel img 256 bb y x) b).length = b.length := by
  induction xs generalizing b with
  | nil => rfl
  | cons x xs ih => rw [List.foldl_cons, ih, writePixel_length]

theorem innerFold_frame (img : Img) (y : Nat) (xs : List Nat) (i : Nat)
    (h : ∀ x ∈ xs, i ≠ y * 256 + x ∧ i ≠ y * 256 + x + 256 * 256
        ∧ i ≠ y * 256 + x + 2 * 256 * 256) :
    ∀ b : List ℚ,
      (xs.foldl (fun bb x => writePixel img 256 bb y x) b).get? i = b.get? i := by
  induction xs with
  | nil => intro b; rfl
  | cons x xs ih =>
    intro b
    rw [List.foldl_cons, ih (fun z hz => h z (List.mem_cons_of_mem _ hz))]
    obtain ⟨h1, h2, h3⟩ := h x (List.mem_cons_self _ _)
    exact writePixel_get?_other img 256 b y x i h1 h2 h3

theorem innerFold_get (img : Img) (y x0 : Nat) (hy : y < 256) (hx0 : x0 < 256) :
    ∀ xs : List Nat, (∀ x ∈ xs, x < 256) → xs.Nodup → x0 ∈ xs →
    ∀ b : List ℚ, b.length = 1 * 3 * (256 * 256) →
      ((xs.foldl (fun bb x => writePixel img 256 bb y x) b).get? (y * 256 + x0)
          = some ((((img x0 y).r >>> 8 : Nat) : ℚ) / 255) ∧
       (xs.foldl (fun bb x => writePixel img 256 bb y x) b).get?
            (y * 256 + x0 + 256 * 256)
          = some ((((img x0 y).g >>> 8 : Nat) : ℚ) / 255) ∧
       (xs.foldl (fun bb x => writePixel img 256 bb y x) b).get?
            (y * 256 + x0 + 2 * 256 * 256)
          = some ((((img x0 y).b >>> 8 : Nat) : ℚ) / 255)) := by
  intro xs
  induction xs with
  | nil => intro _ _ hmem; cases hmem
  | cons x xs ih =>
    intro hxs hnd hmem b hlen
    rw [List.foldl_cons]
    by_cases hxx : x = x0
    · subst hxx
      have hnotin : x ∉ xs := (List.nodup_cons.mp hnd).1
      obtain ⟨hw1, hw2, hw3⟩ := writePixel_get?_self img b y x hx0 hy hlen
      have hfr : ∀ j : Nat,
          (j = y * 256 + x ∨ j = y * 256 + x + 256 * 256
            ∨ j = y * 256 + x + 2 * 256 * 256) →
          (xs.foldl (fun bb z => writePixel img 256 bb y z)
              (writePixel img 256 b y x)).get? j
            = (writePixel img 256 b y x).get? j := by
        intro j hj
        refine innerFold_frame img y xs j (fun z hz => ?_) _
        have hz0 : z ≠ x := fun he => hnotin (he ▸ hz)
        have hzb : z < 256 := hxs z (List.mem_cons_of_mem _ hz)
        rcases hj with hj | hj | hj <;>
          exact ⟨by omega, by omega, by omega⟩
      exact ⟨(hfr _ (Or.inl rfl)).trans hw1,
        (hfr _ (Or.inr (Or.inl rfl))).trans hw2,
        (hfr _ (Or.inr (Or.inr rfl))).trans hw3⟩
    · have hmem2 : x0 ∈ xs := by
        rcases List.mem_cons.mp hmem with h | h
        · exact absurd h.symm hxx
        · exact h
      exact ih (fun z hz => hxs z (List.mem_cons_of_mem _ hz))
        (List.nodup_cons.mp hnd).2 hmem2 (writePixel img 256 b y x)
        (by rw [writePixel_length, hlen])

theorem outerFold_length (img : Img) (ys : List Nat) (b : List ℚ) :
    (ys.foldl (fun bb y =>
        (List.range 256).foldl (fun b2 x => writePixel img 256 b2 y x) bb) b).length
      = b.length := by
  induction ys generalizing b with
  | nil => rfl
  | cons y ys ih => rw [List.foldl_cons, ih, innerFold_length]

theorem outerFold_frame (img : Img) (ys : List Nat) (i : Nat)
    (h : ∀ y ∈ ys, ∀ x ∈ List.range 256,
        i ≠ y * 256 + x ∧ i ≠ y * 256 + x + 256 * 256
          ∧ i ≠ y * 256 + x + 2 * 256 * 256) :
    ∀ b : List ℚ,
      (ys.foldl (fun bb y =>
          (List.range 256).foldl (fun b2 x => writePixel img 256 b2 y x) bb)
            b).get? i
        = b.get? i := by
  induction ys with
  | nil => intro b; rfl
  | cons y ys ih =>
    intro b
    rw [List.foldl_cons, ih (fun z hz => h z (List.mem_cons_of_mem _ hz)),
      innerFold_frame img y (List.range 256) i (h y (List.mem_cons_self _ _))]

theorem outerFold_get (img : Img) (y0 x0 : Nat) (hy0 : y0 < 256) (hx0 : x0 < 256) :
    ∀ ys : List Nat, (∀ y ∈ ys, y < 256) → ys.Nodup → y0 ∈ ys →
    ∀ b : List ℚ, b.length = 1 * 3 * (256 * 256) →
      ((ys.foldl (fun bb y =>
          (List.range 256).foldl (fun b2 x => writePixel img 256 b2 y x) bb)
            b).get? (y0 * 256 + x0)
          = some ((((img x0 y0).r >>> 8 : Nat) : ℚ) / 255) ∧
       (ys.foldl (fun bb y =>
          (List.range 256).foldl (fun b2 x => writePixel img 256 b2 y x) bb)
            b).get? (y0 * 256 + x0 + 256 * 256)
          = some ((((img x0 y0).g >>> 8 : Nat) : ℚ) / 255) ∧
       (ys.foldl (fun bb y =>
          (List.range 256).foldl (fun b2 x => writePixel img 256 b2 y x) bb)
            b).get? (y0 * 256 + x0 + 2 * 256 * 256)
          = some ((((img x0 y0).b >>> 8 : Nat) : ℚ) / 255)) := by
  intro ys
  induction ys with
  | nil => intro _ _ hmem; cases hmem
  | cons y ys ih =>
    intro hys hnd hmem b hlen
    rw [List.foldl_cons]
    by_cases hyy : y = y0
    · subst hyy
      have hnotin : y ∉ ys := (List.nodup_cons.mp hnd).1
      obtain ⟨hw1, hw2, hw3⟩ := innerFold_get img y x0 (hys y (List.mem_cons_self _ _))
        hx0 (List.range 256) (fun z hz => List.mem_range.mp hz)
        (List.nodup_range 256) (List.mem_range.mpr hx0) b hlen
      have hfr : ∀ j : Nat,
          (j = y * 256 + x0 ∨ j = y * 256 + x0 + 256 * 256
            ∨ j = y * 256 + x0 + 2 * 256 * 256) →
          (ys.foldl (fun bb z =>
              (List.range 256).foldl (fun b2 x => writePixel img 256 b2 z x) bb)
              ((List.range 256).foldl (fun b2 x => writePixel img 256 b2 y x) b)).get? j
            = ((List.range 256).foldl
                (fun b2 x => writePixel img 256 b2 y x) b).get? j := by
        intro j hj
        refine outerFold_frame img ys j (fun z hz x hxm => ?_) _
        have hz0 : z ≠ y := fun he => hnotin (he ▸ hz)
        have hzb : z < 256 := hys z (List.mem_cons_of_mem _ hz)
        have hxb : x < 256 := List.mem_range.mp hxm
        rcases hj with hj | hj | hj <;>
          exact ⟨by omega, by omega, by omega⟩
      exact ⟨(hfr _ (Or.inl rfl)).trans hw1,
        (hfr _ (Or.inr (Or.inl rfl))).trans hw2,
        (hfr _ (Or.inr (Or.inr rfl))).trans hw3⟩
    · have hmem2 : y0 ∈ ys := by
        rcases List.mem_cons.mp hmem with h | h
        · exact absurd h.symm hyy
        · exact h
      exact ih (fun z hz => hys z (List.mem_cons_of_mem _ hz))
        (List.nodup_cons.mp hnd).2 hmem2
        ((List.range 256).foldl (fun b2 x => writePixel img 256 b2 y x) b)
        (by rw [innerFold_length, hlen])

theorem channel_value_bounds (c : Nat) (hc : c ≤ 65535) :
    (0 : ℚ) ≤ ((c >>> 8 : Nat) : ℚ) / 255 ∧ ((c >>> 8 : Nat) : ℚ) / 255 ≤ 1 := by
  have h8 : c >>> 8 = c / 2 ^ 8 := Nat.shiftRight_eq_div_pow c 8
  have hle : c >>> 8 ≤ 255 := by
    rw [h8]
    omega
  constructor
  · positivity
  · rw [div_le_one (by norm_num)]
    exact_mod_cast hle

/-- C6: for every decoded 256x256 image with origin bounds, the
preprocessed buffer has the flat size of shape [1,3,256,256]; the value
for channel plane c at pixel (x, y) sits at offset c*(256*256) + y*256 + x
with planes ordered R, G, B, equals the 8-bit sample (the 16-bit sample
shifted right by 8) divided by 255, and lies in [0, 1]. -/
theorem preprocess_image_c6 (img : Img)
    (hbound : ∀ x y, x < 256 → y < 256 →
      (img x y).r ≤ 65535 ∧ (img x y).g ≤ 65535 ∧ (img x y).b ≤ 65535) :
    (preprocessImage img 256 256).length = 1 * 3 * (256 * 256) ∧
    ∀ x y, x < 256 → y < 256 →
      ((preprocessImage img 256 256).get? (0 * (256 * 256) + (y * 256 + x))
          = some ((((img x y).r >>> 8 : Nat) : ℚ) / 255) ∧
       (preprocessImage img 256 256).get? (1 * (256 * 256) + (y * 256 + x))
          = some ((((img x y).g >>> 8 : Nat) : ℚ) / 255) ∧
       (preprocessImage img 256 256).get? (2 * (256 * 256) + (y * 256 + x))
          = some ((((img x y).b >>> 8 : Nat) : ℚ) / 255) ∧
       ((0 : ℚ) ≤ (((img x y).r >>> 8 : Nat) : ℚ) / 255 ∧
          (((img x y).r >>> 8 : Nat) : ℚ) / 255 ≤ 1) ∧
       ((0 : ℚ) ≤ (((img x y).g >>> 8 : Nat) : ℚ) / 255 ∧
          (((img x y).g >>> 8 : Nat) : ℚ) / 255 ≤ 1) ∧
       ((0 : ℚ) ≤ (((img x y).b >>> 8 : Nat) : ℚ) / 255 ∧
          (((img x y).b >>> 8 : Nat) : ℚ) / 255 ≤ 1)) := by
  have hinit : (List.replicate (1 * 3 * (256 * 256)) (0 : ℚ)).length
      = 1 * 3 * (256 * 256) := List.length_replicate _ _
  unfold preprocessImage
  constructor
  · rw [outerFold_length, hinit]
  · intro x y hx hy
    obtain ⟨hr, hg, hb⟩ := hbound x y hx hy
    obtain ⟨h1, h2, h3⟩ := outerFold_get img y x hy hx (List.range 256)
      (fun z hz => List.mem_range.mp hz) (List.nodup_range 256)
      (List.mem_range.mpr hy) (List.replicate (1 * 3 * (256 * 256)) 0) hinit
    refine ⟨?_, ?_, ?_, channel_value_bounds _ hr, channel_value_bounds _ hg,
      channel_value_bounds _ hb⟩
    · rw [show 0 * (256 * 256) + (y * 256 + x) = y * 256 + x from by omega]
      exact h1
    · rw [show 1 * (256 * 256) + (y * 256 + x) = y * 256 + x + 256 * 256
        from by omega]
      exact h2
    · rw [show 2 * (256 * 256) + (y * 256 + x) = y * 256 + x + 2 * 256 * 256
        from by omega]
      exact h3

/-- A constant all-black test image. -/
def blackImg : Img := fun _ _ => ⟨0, 0, 0, 65535⟩

/-- C6 witness: on the all-black 256x256 image the green plane holds 0 at
pixel (3, 2). -/
theorem preprocess_image_c6_witness :
    (preprocessImage blackImg 256 256).get? (1 * (256 * 256) + (2 * 256 + 3))
      = some 0 := by
  obtain ⟨-, h⟩ := preprocess_image_c6 blackImg
    (fun x y hx hy => ⟨by simp [blackImg], by simp [blackImg],
      by simp [blackImg]⟩)
  obtain ⟨-, h2, -⟩ := h 3 2 (by norm_num) (by norm_num)
  rw [h2]
  norm_num [blackImg]

/-! ## OCR handlers: ExtractText (V2, part with semaphore, temp workspace
and deadline) and PaddXServi (V1, fixed directories, no deadline).
Each handler is embedded as a function of an oracle record listing what
the framework, the filesystem and the external process do at each
effectful step, and returns the HTTP response together with the trace of
filesystem effects.  Base64 encoding of the visualization bytes is an
external library call and is modelled as the identity on the content. -/

/-- Filesystem effects performed by the OCR handlers. -/
inductive FsEvent where
  | mkdirTemp (dir : String)
  | mkdirAll (dir : String)
  | createFile (path : String)
  | removeAll (dir : String)
  deriving DecidableEq, Repr

/-- HTTP responses of the OCR handlers, one constructor per kind of
return site, with the Go message strings. -/
inductive OcrResponse where
  | badRequest (msg : String)
  | internalError (msg : String)
  | processError (details : String)
  | busy
  | timeout
  | ok (filteredTexts : List String) (imageBase64 : String)
  deriving DecidableEq, Repr

/-- HTTP status code of each OCR response, from the Go return sites. -/
def OcrResponse.status : OcrResponse → Nat
  | .badRequest _ => 400
  | .internalError _ => 500
  | .processError _ => 500
  | .busy => 503
  | .timeout => 504
  | .ok _ _ => 200

/-- filepath.Join modelled as concatenation with one separator. -/
def fjoin (dir name : String) : String := dir ++ "/" ++ name

/-- Oracle for one run of the V2 OCR handler ExtractText. -/
structure OcrEnv where
  formFile : Option String
  openOk : Bool
  acquired : Bool
  tempDir : Option String
  mkOutputOk : Bool
  createOk : Bool
  copyOk : Bool
  cmdErr : Bool
  deadlineExceeded : Bool
  cmdOutput : String
  readResultOk : Bool
  parseOk : Bool
  recScores : Option (List JVal)
  recTexts : Option (List JVal)
  visImage : Option String
  deriving Repr

/-- A return from ExtractText reached after the workspace was created:
the deferred os.RemoveAll(tempDir) runs when the handler returns, so the
removal is the last filesystem event of the request. -/
def ocrFinish (dir : String) (r : OcrResponse) (evts : List FsEvent) :
    OcrResponse × List FsEvent :=
  (r, FsEvent.mkdirTemp dir :: (evts ++ [FsEvent.removeAll dir]))

/-- The V2 OCR handler ExtractText: form file (400), open (500),
semaphore with 5 second wait (503), per-request temp workspace (500),
output dir (500), save upload (500/500), paddlex under a 30 second
deadline (504 on deadline, 500 with combined output otherwise), result
JSON read (500) and parse (500), confidence filtering, optional
visualization image, 200 response. -/
def ExtractTextT (env : OcrEnv) : OcrResponse × List FsEvent :=
  match env.formFile with
  | none => (.badRequest "無法取得圖片", [])
  | some fname =>
    if !env.openOk then (.internalError "無法打開圖片檔案", [])
    else if !env.acquired then (.busy, [])
    else
      match env.tempDir with
      | none => (.internalError "無法建立暫存目錄", [])
      | some dir =>
        let inputPath := fjoin dir fname
        let outputDir := fjoin dir "output"
        if !env.mkOutputOk then
          ocrFinish dir (.internalError "無法建立輸出目錄") []
        else if !env.createOk then
          ocrFinish dir (.internalError "無法儲存圖片") [.mkdirAll outputDir]
        else if !env.copyOk then
          ocrFinish dir (.internalError "儲存圖片失敗")
            [.mkdirAll outputDir, .createFile inputPath]
        else if env.cmdErr then
          if env.deadlineExceeded then
            ocrFinish dir .timeout [.mkdirAll outputDir, .createFile inputPath]
          else
            ocrFinish dir (.processError env.cmdOutput)
              [.mkdirAll outputDir, .createFile inputPath]
        else if !env.readResultOk then
          ocrFinish dir (.internalError "無法讀取結果 JSON")
            [.mkdirAll outputDir, .createFile inputPath]
        else if !env.parseOk then
          ocrFinish dir (.internalError "解析 JSON 失敗")
            [.mkdirAll outputDir, .createFile inputPath]
        else
          let filteredTexts :=
            match env.recScores, env.recTexts with
            | some scores, some texts => filterTexts scores texts
            | _, _ => []
          ocrFinish dir (.ok filteredTexts ((env.visImage).getD ""))
            [.mkdirAll outputDir, .createFile inputPath]

/-- The HTTP response of the V2 OCR handler. -/
def ExtractText (env : OcrEnv) : OcrResponse := (ExtractTextT env).1

/-- Oracle for one run of the V1 OCR handler PaddXServi. -/
structure OcrV1Env where
  formFile : Option String
  openOk : Bool
  createOk : Bool
  copyOk : Bool
  cmdErr : Bool
  cmdOutput : String
  readResultOk : Bool
  parseOk : Bool
  recScores : Option (List JVal)
  recTexts : Option (List JVal)
  visImage : Option String
  deriving Repr

/-- The fixed upload directory of the V1 OCR handler. -/
def v1UploadDir : String := "C:\\Users\\jo87j\\Desktop\\paddx_input\\"

/-- The fixed output directory of the V1 OCR handler. -/
def v1OutputDir : String := "C:\\Users\\jo87j\\Desktop\\paddx_output\\"

/-- The V1 OCR handler PaddXServi: form file (400), open (500), fixed
shared upload and output directories (mkdirAll, errors ignored), save
under the original filename (500/500), paddlex with no deadline (500 with
combined output on failure), result JSON read (500), confidence filter,
parse check (500), mandatory visualization image (500 when missing),
200 response.  No temporary workspace is created and nothing is removed. -/
def PaddXServiT (env : OcrV1Env) : OcrResponse × List FsEvent :=
  match env.formFile with
  | none => (.badRequest "無法取得圖片", [])
  | some fname =>
    if !env.openOk then (.internalError "無法打開圖片檔案", [])
    else
      let evts0 := [FsEvent.mkdirAll v1UploadDir, FsEvent.mkdirAll v1OutputDir]
      let inputPath := fjoin v1UploadDir fname
      if !env.createOk then (.internalError "無法儲存圖片", evts0)
      else if !env.copyOk then
        (.internalError "儲存圖片失敗", evts0 ++ [.createFile inputPath])
      else if env.cmdErr then
        (.processError env.cmdOutput, evts0 ++ [.createFile inputPath])
      else if !env.readResultOk then
        (.internalError "無法讀取結果 JSON", evts0 ++ [.createFile inputPath])
      else if !env.parseOk then
        (.internalError "failed to parse resultBytes",
          evts0 ++ [.createFile inputPath])
      else
        match env.visImage with
        | none =>
          (.internalError "無法讀取定位後圖片", evts0 ++ [.createFile inputPath])
        | some bytes =>
          let filteredTexts :=
            match env.recScores, env.recTexts with
            | some scores, some texts => filterTexts scores texts
            | _, _ => []
          (.ok filteredTexts bytes, evts0 ++ [.createFile inputPath])

/-- The HTTP response of the V1 OCR handler. -/
def PaddXServi (env : OcrV1Env) : OcrResponse := (PaddXServiT env).1

theorem ocrFinish_head (dir : String) (r : OcrResponse) (evts : List FsEvent) :
    (ocrFinish dir r evts).2.head? = some (FsEvent.mkdirTemp dir) := rfl

theorem ocrFinish_last (dir : String) (r : OcrResponse) (evts : List FsEvent) :
    (ocrFinish dir r evts).2.getLast? = some (FsEvent.removeAll dir) := by
  show (FsEvent.mkdirTemp dir :: (evts ++ [FsEvent.removeAll dir])).getLast? = _
  rw [← List.cons_append, List.getLast?_concat]

/-- Every run of the V2 OCR handler that created its workspace returns
through the deferred cleanup, whatever the remaining oracle says. -/
theorem ExtractTextT_shape (env : OcrEnv) (fname dir : String)
    (hf : env.formFile = some fname) (ho : env.openOk = true)
    (ha : env.acquired = true) (hd : env.tempDir = some dir) :
    ∃ r evts, ExtractTextT env = ocrFinish dir r evts := by
  simp only [ExtractTextT, hf, ho, ha, hd, Bool.not_true, Bool.false_eq_true,
    if_false]
  cases env.mkOutputOk <;> cases env.createOk <;> cases env.copyOk <;>
    cases env.cmdErr <;> cases env.deadlineExceeded <;>
    cases env.readResultOk <;> cases env.parseOk <;>
    exact ⟨_, _, rfl⟩

/-- C3: in the V2 OCR handler, a request whose wall-clock deadline elapsed
before the external process exited yields the 504 gateway-timeout outcome
and never the generic process error, while a non-zero process exit
without deadline expiry yields the 500 process error carrying the
captured combined stdout and stderr. -/
theorem ocr_timeout_classification_c3 (env : OcrEnv) (fname dir : String)
    (hf : env.formFile = some fname) (ho : env.openOk = true)
    (ha : env.acquired = true) (hd : env.tempDir = some dir)
    (hmk : env.mkOutputOk = true) (hcr : env.createOk = true)
    (hcp : env.copyOk = true) (hcmd : env.cmdErr = true) :
    (env.deadlineExceeded = true →
      ExtractText env = OcrResponse.timeout ∧
      (ExtractText env).status = 504 ∧
      ∀ d, ExtractText env ≠ OcrResponse.processError d) ∧
    (env.deadlineExceeded = false →
      ExtractText env = OcrResponse.processError env.cmdOutput ∧
      (ExtractText env).status = 500) := by
  constructor
  · intro hde
    have he : ExtractText env = OcrResponse.timeout := by
      simp [ExtractText, ExtractTextT, hf, ho, ha, hd, hmk, hcr, hcp, hcmd,
        hde, ocrFinish]
    refine ⟨he, by rw [he]; rfl, ?_⟩
    intro d hc
    rw [he] at hc
    exact OcrResponse.noConfusion hc
  · intro hde
    have he : ExtractText env = OcrResponse.processError env.cmdOutput := by
      simp [ExtractText, ExtractTextT, hf, ho, ha, hd, hmk, hcr, hcp, hcmd,
        hde, ocrFinish]
    exact ⟨he, by rw [he]; rfl⟩

/-- A V2 OCR oracle for a request whose deadline elapsed while paddlex
was still running. -/
def ocrTimeoutEnv : OcrEnv :=
  { formFile := some "receipt.png", openOk := true, acquired := true,
    tempDir := some "ocr_task_123", mkOutputOk := true, createOk := true,
    copyOk := true, cmdErr := true, deadlineExceeded := true,
    cmdOutput := "signal: killed", readResultOk := false, parseOk := false,
    recScores := none, recTexts := none, visImage := none }

/-- C3 witness: the timed-out request gets the 504 timeout outcome. -/
theorem ocr_timeout_classification_c3_witness :
    ExtractText ocrTimeoutEnv = OcrResponse.timeout ∧
    (ExtractText ocrTimeoutEnv).status = 504 := by
  obtain ⟨h, -⟩ := ocr_timeout_classification_c3 ocrTimeoutEnv "receipt.png"
    "ocr_task_123" rfl rfl rfl rfl rfl rfl rfl rfl
  obtain ⟨h1, h2, -⟩ := h rfl
  exact ⟨h1, h2⟩

/-- C4 (amended to the V2 handler ExtractText): every request that
created its temporary workspace has the creation as its first filesystem
event and the deferred recursive removal as its last, on every exit path;
and workspaces with distinct directory names yield distinct input paths
even for identical uploaded filenames, so concurrent requests with the
same upload name cannot collide.  The V1 handler PaddXServi does not
satisfy the original claim; see the counterexample. -/
theorem ocr_workspace_c4 (env : OcrEnv) (fname dir : String)
    (hf : env.formFile = some fname) (ho : env.openOk = true)
    (ha : env.acquired = true) (hd : env.tempDir = some dir) :
    (ExtractTextT env).2.head? = some (FsEvent.mkdirTemp dir) ∧
    (ExtractTextT env).2.getLast? = some (FsEvent.removeAll dir) ∧
    ∀ dir2 f, dir ≠ dir2 → fjoin dir f ≠ fjoin dir2 f := by
  obtain ⟨r, evts, he⟩ := ExtractTextT_shape env fname dir hf ho ha hd
  refine ⟨by rw [he, ocrFinish_head], by rw [he, ocrFinish_last], ?_⟩
  intro dir2 f hne heq
  apply hne
  have h2 : dir ++ "/" ++ f = dir2 ++ "/" ++ f := heq
  have h3 : (dir ++ "/").data ++ f.data = (dir2 ++ "/").data ++ f.data := by
    rw [← String.data_append, ← String.data_append, h2]
  have h4 : (dir ++ "/").data = (dir2 ++ "/").data :=
    List.append_cancel_right h3
  rw [String.data_append, String.data_append] at h4
  exact String.ext (List.append_cancel_right h4)

/-- A V2 OCR oracle for a fully successful request. -/
def ocrOkEnv : OcrEnv :=
  { formFile := some "receipt.png", openOk := true, acquired := true,
    tempDir := some "ocr_task_abc", mkOutputOk := true, createOk := true,
    copyOk := true, cmdErr := false, deadlineExceeded := false,
    cmdOutput := "", readResultOk := true, parseOk := true,
    recScores := some [JVal.num 0.9], recTexts := some [JVal.str "hello"],
    visImage := some "imgbytes" }

/-- C4 witness: the successful request opens with the workspace creation
and closes with its removal. -/
theorem ocr_workspace_c4_witness :
    (ExtractTextT ocrOkEnv).2.head? = some (FsEvent.mkdirTemp "ocr_task_abc") ∧
    (ExtractTextT ocrOkEnv).2.getLast?
      = some (FsEvent.removeAll "ocr_task_abc") := by
  obtain ⟨h1, h2, -⟩ :=
    ocr_workspace_c4 ocrOkEnv "receipt.png" "ocr_task_abc" rfl rfl rfl rfl
  exact ⟨h1, h2⟩

/-- A V1 OCR oracle for a fully successful request. -/
def v1OkEnv : OcrV1Env :=
  { formFile := some "receipt.png", openOk := true, createOk := true,
    copyOk := true, cmdErr := false, cmdOutput := "", readResultOk := true,
    parseOk := true, recScores := some [JVal.num 0.9],
    recTexts := some [JVal.str "hello"], visImage := some "imgbytes" }

/-- C4 counterexample: a successful request to the V1 OCR handler (the
live route /api/ai/image/orc/text) creates no per-request workspace and
removes nothing: its filesystem trace holds only the two fixed shared
directories and the input file named by the original upload name. -/
theorem ocr_workspace_c4_cex :
    (PaddXServiT v1OkEnv).2 = [FsEvent.mkdirAll v1UploadDir,
      FsEvent.mkdirAll v1OutputDir,
      FsEvent.createFile (fjoin v1UploadDir "receipt.png")] ∧
    ((PaddXServiT v1OkEnv).2.all (fun e =>
      match e with
      | FsEvent.mkdirTemp _ => false
      | FsEvent.removeAll _ => false
      | _ => true)) = true :=
  ⟨rfl, rfl⟩

/-- C8 (amended to the V2 handler ExtractText): when the external process
succeeds and the JSON result artifact is read and parsed but the optional
visualization image is absent, the request still completes with the 200
response carrying an empty image field; when the JSON result artifact
itself cannot be read, the request fails with the fatal 500 error.  The
V1 handler PaddXServi instead fails with 500 when the visualization image
is missing; see the counterexample. -/
theorem ocr_degraded_c8 (env : OcrEnv) (fname dir : String)
    (hf : env.formFile = some fname) (ho : env.openOk = true)
    (ha : env.acquired = true) (hd : env.tempDir = some dir)
    (hmk : env.mkOutputOk = true) (hcr : env.createOk = true)
    (hcp : env.copyOk = true) (hcmd : env.cmdErr = false) :
    (env.readResultOk = true → env.parseOk = true → env.visImage = none →
      ∃ ts, ExtractText env = OcrResponse.ok ts "" ∧
        (ExtractText env).status = 200) ∧
    (env.readResultOk = false →
      ExtractText env = OcrResponse.internalError "無法讀取結果 JSON" ∧
      (ExtractText env).status = 500) := by
  constructor
  · intro hrr hpo hvis
    have he : ExtractText env = OcrResponse.ok
        (match env.recScores, env.recTexts with
         | some scores, some texts => filterTexts scores texts
         | _, _ => []) "" := by
      simp [ExtractText, ExtractTextT, hf, ho, ha, hd, hmk, hcr, hcp, hcmd,
        hrr, hpo, hvis, ocrFinish]
    exact ⟨_, he, by rw [he]; rfl⟩
  · intro hrr
    have he : ExtractText env
        = OcrResponse.internalError "無法讀取結果 JSON" := by
      simp [ExtractText, ExtractTextT, hf, ho, ha, hd, hmk, hcr, hcp, hcmd,
        hrr, ocrFinish]
    exact ⟨he, by rw [he]; rfl⟩

/-- A V2 OCR oracle for a successful request whose visualization image is
missing. -/
def ocrNoVisEnv : OcrEnv :=
  { formFile := some "receipt.png", openOk := true, acquired := true,
    tempDir := some "ocr_task_abc", mkOutputOk := true, createOk := true,
    copyOk := true, cmdErr := false, deadlineExceeded := false,
    cmdOutput := "", readResultOk := true, parseOk := true,
    recScores := some [JVal.num 0.9], recTexts := some [JVal.str "hello"],
    visImage := none }

/-- C8 witness: the degraded request still gets a 200 response. -/
theorem ocr_degraded_c8_witness :
    (ExtractText ocrNoVisEnv).status = 200 := by
  obtain ⟨h, -⟩ := ocr_degraded_c8 ocrNoVisEnv "receipt.png" "ocr_task_abc"
    rfl rfl rfl rfl rfl rfl rfl rfl
  obtain ⟨ts, -, h2⟩ := h rfl rfl rfl
  exact h2

/-- A V1 OCR oracle for a request that succeeded except for the missing
visualization image. -/
def v1NoVisEnv : OcrV1Env :=
  { formFile := some "receipt.png", openOk := true, createOk := true,
    copyOk := true, cmdErr := false, cmdOutput := "", readResultOk := true,
    parseOk := true, recScores := some [JVal.num 0.9],
    recTexts := some [JVal.str "hello"], visImage := none }

/-- C8 counterexample: the V1 OCR handler (live route
/api/ai/image/orc/text) answers 500 instead of 200 when only the optional
visualization image is missing. -/
theorem ocr_degraded_c8_cex :
    PaddXServi v1NoVisEnv = OcrResponse.internalError "無法讀取定位後圖片" ∧
    (PaddXServi v1NoVisEnv).status = 500 :=
  ⟨rfl, rfl⟩

/-! ## Classification handlers and the engine environment.
The V2 handler reads the cached init outcome and acquires a semaphore
permit; the V1 handler initializes and destroys the engine environment on
every request.  Dynamic err.Error() message strings, produced by the Go
error values at the form-file, open and read steps, are represented by
the fixed label "err.Error()". -/

/-- HTTP responses of the classification handlers: jsonErr is a JSON body
carrying an error code and message at the given status, jsonOk the 200
result body. -/
inductive ClassifyResp where
  | jsonErr (status : Nat) (msg : String)
  | jsonOk (result : String)
  deriving DecidableEq, Repr

/-- HTTP status code of a classification response. -/
def ClassifyResp.status : ClassifyResp → Nat
  | .jsonErr s _ => s
  | .jsonOk _ => 200

/-- Oracle for one run of the V2 classification handler. -/
structure ClassifyEnv where
  onnxEnvErr : Option String
  acquired : Bool
  formFile : Bool
  openOk : Bool
  decodeOk : Bool
  inputTensorOk : Bool
  outputTensorOk : Bool
  sessionOk : Bool
  runOk : Bool
  scores : List ℚ
  deriving Repr

/-- The V2 classification handler ClassifyImage: cached environment error
(500), semaphore with 3 second wait (503), form file (400), open (500),
decode (400), tensors (500, 500), session (500), run (500), then the
postprocessing decision; none models the panic that only an empty score
vector could cause. -/
def ClassifyImageV2 (env : ClassifyEnv) : Option ClassifyResp :=
  if env.onnxEnvErr.isSome then
    some (.jsonErr 500 "ONNX環境初始化失敗")
  else if !env.acquired then some (.jsonErr 503 "系統忙碌中，請稍後再試")
  else if !env.formFile then some (.jsonErr 400 "err.Error()")
  else if !env.openOk then some (.jsonErr 500 "err.Error()")
  else if !env.decodeOk then some (.jsonErr 400 "Failed to decode image")
  else if !env.inputTensorOk then
    some (.jsonErr 500 "Failed to create input tensor")
  else if !env.outputTensorOk then
    some (.jsonErr 500 "Failed to create output tensor")
  else if !env.sessionOk then some (.jsonErr 500 "無法載入模型 session")
  else if !env.runOk then some (.jsonErr 500 "推理失敗")
  else
    match classifyDecision env.scores with
    | some r => some (.jsonOk r)
    | none => none

/-- Oracle for one run of the V1 classification handler. -/
structure ClassifyV1Env where
  formFile : Bool
  openOk : Bool
  readAllOk : Bool
  decodeOk : Bool
  initEnvOk : Bool
  inputTensorOk : Bool
  outputTensorOk : Bool
  sessionOk : Bool
  runOk : Bool
  scores : List ℚ
  deriving Repr

/-- The V1 classification handler ClassifyImage: form-file, open and
read failures are answered with http.StatusOK carrying an error-coded
body; decode failure is 400; the ONNX environment is initialized inside
the request (500 on failure) and destroyed by a deferred call; tensor,
session and run failures are 500; the decision is as in V2. -/
def ClassifyImageV1 (env : ClassifyV1Env) : Option ClassifyResp :=
  if !env.formFile then some (.jsonErr 200 "err.Error()")
  else if !env.openOk then some (.jsonErr 200 "err.Error()")
  else if !env.readAllOk then some (.jsonErr 200 "err.Error()")
  else if !env.decodeOk then some (.jsonErr 400 "Failed to decode image")
  else if !env.initEnvOk then
    some (.jsonErr 500 "Failed to initialize ONNX environment")
  else if !env.inputTensorOk then
    some (.jsonErr 500 "Failed to create input tensor")
  else if !env.outputTensorOk then
    some (.jsonErr 500 "Failed to create output tensor")
  else if !env.sessionOk then some (.jsonErr 500 "無法初始化 ONNX")
  else if !env.runOk then some (.jsonErr 500 "推理失敗")
  else
    match classifyDecision env.scores with
    | some r => some (.jsonOk r)
    | none => none

/-- Engine environment effects. -/
inductive EnvEvent where
  | setSharedLibraryPath
  | initializeEnvironment
  | destroyEnvironment
  deriving DecidableEq, Repr

/-- The engine-environment calls of one V1 classification request: a
request that reaches the initialization block sets the shared library
path and initializes the environment, and the deferred
ort.DestroyEnvironment destroys it again when initialization succeeded. -/
def classifyV1EnvEvents (env : ClassifyV1Env) : List EnvEvent :=
  if !env.formFile || !env.openOk || !env.readAllOk || !env.decodeOk then []
  else if !env.initEnvOk then
    [EnvEvent.setSharedLibraryPath, EnvEvent.initializeEnvironment]
  else
    [EnvEvent.setSharedLibraryPath, EnvEvent.initializeEnvironment,
      EnvEvent.destroyEnvironment]

/-- The process-wide one-time guard state of the V2 path: the sync.Once
flag, the cached onnxEnvErr, and a ghost counter of executions of the
initialization body. -/
structure OnceState where
  done : Bool
  onnxEnvErr : Option String
  execCount : Nat
  deriving DecidableEq, Repr

/-- One call to initONNXEnv: the sync.Once guard runs the body (set the
shared library path, initialize the engine, record the error on failure)
only when no call has run it yet, and every call returns the cached
onnxEnvErr.  The guard serializes the body, so any concurrent first use
is an interleaving order of these atomic calls.  initResult is the
outcome the engine bootstrap produces the one time the body runs (none
meaning success). -/
def initONNXEnv (initResult : Option String) (st : OnceState) :
    OnceState × Option String :=
  if st.done then (st, st.onnxEnvErr)
  else
    let st2 : OnceState :=
      { done := true, onnxEnvErr := initResult, execCount := st.execCount + 1 }
    (st2, st2.onnxEnvErr)

/-- A sequence of calls to initONNXEnv, collecting the returned errors. -/
def runInitCalls (initResult : Option String) :
    Nat → OnceState → OnceState × List (Option String)
  | 0, st => (st, [])
  | k + 1, st =>
    let p := initONNXEnv initResult st
    let q := runInitCalls initResult k p.1
    (q.1, p.2 :: q.2)

/-- The process start state: initialization has not run. -/
def initialOnceState : OnceState := ⟨false, none, 0⟩

theorem runInitCalls_done (r : Option String) (k : Nat) (st : OnceState)
    (hd : st.done = true) :
    runInitCalls r k st = (st, List.replicate k st.onnxEnvErr) := by
  induction k with
  | zero => rfl
  | succ k ih =>
    rw [runInitCalls]
    simp [initONNXEnv, hd, ih, List.replicate]

/-- A V1 classification oracle for a fully successful request. -/
def okV1Env : ClassifyV1Env :=
  { formFile := true, openOk := true, readAllOk := true, decodeOk := true,
    initEnvOk := true, inputTensorOk := true, outputTensorOk := true,
    sessionOk := true, runOk := true,
    scores := [5, 0, 0, 0, 0, 0, 0, 0, 0, 0, 0] }

/-- C5: the V2 singleton initONNXEnv runs its body exactly once over any
number of serialized calls, every caller observes the same cached
outcome, and the cached outcome is sticky.  The claim nevertheless fails
for the process as a whole: the live V1 classification handler re-runs
ort.SetSharedLibraryPath and ort.InitializeEnvironment on every request
and destroys the environment with a deferred ort.DestroyEnvironment, so
two successful V1 requests execute the initialization body twice and
destroy the environment before process shutdown. -/
theorem onnx_env_c5 :
    (∀ (r : Option String) (k : Nat),
      (runInitCalls r k initialOnceState).1.execCount = min k 1 ∧
      (runInitCalls r k initialOnceState).2 = List.replicate k r ∧
      (runInitCalls r (k + 1) initialOnceState).1.onnxEnvErr = r) ∧
    ((classifyV1EnvEvents okV1Env ++ classifyV1EnvEvents okV1Env).count
        EnvEvent.initializeEnvironment = 2 ∧
      EnvEvent.destroyEnvironment ∈ classifyV1EnvEvents okV1Env) := by
  have hfirst : ∀ (r : Option String) (k : Nat),
      runInitCalls r (k + 1) initialOnceState
        = (⟨true, r, 1⟩, r :: List.replicate k r) := by
    intro r k
    rw [runInitCalls]
    have h1 : initONNXEnv r initialOnceState = (⟨true, r, 1⟩, r) := rfl
    rw [h1, runInitCalls_done r k ⟨true, r, 1⟩ rfl]
  constructor
  · intro r k
    cases k with
    | zero => exact ⟨rfl, rfl, by rw [hfirst]⟩
    | succ k =>
      rw [hfirst]
      refine ⟨?_, rfl, by rw [hfirst]⟩
      show 1 = min (k + 1) 1
      omega
  · exact ⟨rfl, by decide⟩

/-- C9 (amended): a missing or malformed upload is answered 400 by both
OCR handlers and by the V2 classification handler, and an undecodable
image is answered 400 by every handler that decodes; the V1
classification handler instead answers a missing or unreadable upload
with HTTP 200 carrying an error-coded body.  No handler retries: each
oracle step is consulted once per request. -/
theorem input_faults_c9 :
    (∀ env : OcrEnv, env.formFile = none →
      ExtractText env = OcrResponse.badRequest "無法取得圖片" ∧
      (ExtractText env).status = 400) ∧
    (∀ env : OcrV1Env, env.formFile = none →
      PaddXServi env = OcrResponse.badRequest "無法取得圖片" ∧
      (PaddXServi env).status = 400) ∧
    (∀ env : ClassifyEnv, env.onnxEnvErr = none → env.acquired = true →
      (env.formFile = false →
        ClassifyImageV2 env = some (ClassifyResp.jsonErr 400 "err.Error()")) ∧
      (env.formFile = true → env.openOk = true → env.decodeOk = false →
        ClassifyImageV2 env
          = some (ClassifyResp.jsonErr 400 "Failed to decode image"))) ∧
    (∀ env : ClassifyV1Env,
      (env.formFile = false →
        ClassifyImageV1 env = some (ClassifyResp.jsonErr 200 "err.Error()")) ∧
      (env.formFile = true → env.openOk = true → env.readAllOk = true →
        env.decodeOk = false →
        ClassifyImageV1 env
          = some (ClassifyResp.jsonErr 400 "Failed to decode image"))) := by
  refine ⟨?_, ?_, ?_, ?_⟩
  · intro env hf
    have he : ExtractText env = OcrResponse.badRequest "無法取得圖片" := by
      simp [ExtractText, ExtractTextT, hf]
    exact ⟨he, by rw [he]; rfl⟩
  · intro env hf
    have he : PaddXServi env = OcrResponse.badRequest "無法取得圖片" := by
      simp [PaddXServi, PaddXServiT, hf]
    exact ⟨he, by rw [he]; rfl⟩
  · intro env he ha
    have hs : env.onnxEnvErr.isSome = false := by rw [he]; rfl
    constructor
    · intro hf
      simp [ClassifyImageV2, hs, ha, hf]
    · intro hf ho hd
      simp [ClassifyImageV2, hs, ha, hf, ho, hd]
  · intro env
    constructor
    · intro hf
      simp [ClassifyImageV1, hf]
    · intro hf ho hr hd
      simp [ClassifyImageV1, hf, ho, hr, hd]

/-- A V1 classification oracle for a request with no uploaded file. -/
def v1MissingUploadEnv : ClassifyV1Env :=
  { formFile := false, openOk := true, readAllOk := true, decodeOk := true,
    initEnvOk := true, inputTensorOk := true, outputTensorOk := true,
    sessionOk := true, runOk := true, scores := [] }

/-- C9 counterexample: the live V1 classification route answers a missing
upload with HTTP 200 and an error-coded body, not a 4xx status. -/
theorem input_faults_c9_cex :
    ClassifyImageV1 v1MissingUploadEnv
      = some (ClassifyResp.jsonErr 200 "err.Error()") ∧
    (ClassifyImageV1 v1MissingUploadEnv).map ClassifyResp.status
      = some 200 :=
  ⟨rfl, rfl⟩

/-- A V2 OCR oracle for a request with no uploaded file. -/
def ocrNoFileEnv : OcrEnv :=
  { formFile := none, openOk := true, acquired := true, tempDir := none,
    mkOutputOk := true, createOk := true, copyOk := true, cmdErr := false,
    deadlineExceeded := false, cmdOutput := "", readResultOk := true,
    parseOk := true, recScores := none, recTexts := none, visImage := none }

/-- C9 witness: the missing upload gets a 400 from the V2 OCR handler. -/
theorem input_faults_c9_witness :
    (ExtractText ocrNoFileEnv).status = 400 := by
  obtain ⟨h, -⟩ := input_faults_c9
  exact (h ocrNoFileEnv rfl).2

/-! ## Admission control: buffered-channel semaphores -/

/-- The capacity of the classification semaphore. -/
def MaxClassificationConcurrency : Nat := 8

/-- The capacity of the OCR semaphore. -/
def MaxOCRConcurrency : Nat := 4

/-- Operations on a buffered channel used as a counting semaphore: a send
acquires a permit, the Go channel send in the select, and a receive
releases one, the channel receive in the deferred function. -/
inductive ChanOp where
  | send
  | recv
  deriving DecidableEq, Repr

/-- Semantics of a buffered channel of the given capacity holding k
items: a send completes only while the buffer is not full, a receive only
while it is not empty; otherwise the caller blocks (none). -/
def chanStep (cap k : Nat) : ChanOp → Option Nat
  | ChanOp.send => if k < cap then some (k + 1) else none
  | ChanOp.recv => if 0 < k then some (k - 1) else none

/-- Run a sequence of completed channel operations from k permits held. -/
def runChan (cap : Nat) : Nat → List ChanOp → Option Nat
  | k, [] => some k
  | k, op :: ops =>
    match chanStep cap k op with
    | some k2 => runChan cap k2 ops
    | none => none

theorem runChan_le (cap : Nat) (ops : List ChanOp) :
    ∀ k, k ≤ cap → ∀ k2, runChan cap k ops = some k2 → k2 ≤ cap := by
  induction ops with
  | nil =>
    intro k hk k2 h
    rw [runChan] at h
    have hkk : k = k2 := by
      exact Option.some.inj h
    rw [← hkk]
    exact hk
  | cons op ops ih =>
    intro k hk k2 h
    rw [runChan] at h
    rcases op with _ | _
    · by_cases hlt : k < cap
      · rw [show chanStep cap k ChanOp.send = some (k + 1)
            from by rw [chanStep, if_pos hlt]] at h
        exact ih (k + 1) (by omega) k2 h
      · rw [show chanStep cap k ChanOp.send = none
            from by rw [chanStep, if_neg hlt]] at h
        cases h
    · by_cases hpos : 0 < k
      · rw [show chanStep cap k ChanOp.recv = some (k - 1)
            from by rw [chanStep, if_pos hpos]] at h
        exact ih (k - 1) (by omega) k2 h
      · rw [show chanStep cap k ChanOp.recv = none
            from by rw [chanStep, if_neg hpos]] at h
        cases h

/-- C7: along every sequence of completed operations of the buffered
channel starting from the empty semaphore, every reachable permit count
stays at most the capacity (8 for the classification path, 4 for the OCR
path); and a request that does not obtain a permit within the wait limit
receives the 503 busy outcome from either V2 handler instead of queuing
indefinitely. -/
theorem admission_bound_c7 :
    (∀ (ops : List ChanOp) (k : Nat),
      runChan MaxClassificationConcurrency 0 ops = some k →
      k ≤ MaxClassificationConcurrency) ∧
    (∀ (ops : List ChanOp) (k : Nat),
      runChan MaxOCRConcurrency 0 ops = some k → k ≤ MaxOCRConcurrency) ∧
    (∀ env : ClassifyEnv, env.onnxEnvErr = none → env.acquired = false →
      ClassifyImageV2 env
          = some (ClassifyResp.jsonErr 503 "系統忙碌中，請稍後再試") ∧
      (ClassifyImageV2 env).map ClassifyResp.status = some 503) ∧
    (∀ env : OcrEnv, ∀ f, env.formFile = some f → env.openOk = true →
      env.acquired = false →
      ExtractText env = OcrResponse.busy ∧
      (ExtractText env).status = 503) := by
  refine ⟨?_, ?_, ?_, ?_⟩
  · intro ops k h
    exact runChan_le MaxClassificationConcurrency ops 0 (by omega) k h
  · intro ops k h
    exact runChan_le MaxOCRConcurrency ops 0 (by omega) k h
  · intro env he ha
    have hs : env.onnxEnvErr.isSome = false := by rw [he]; rfl
    have h1 : ClassifyImageV2 env
        = some (ClassifyResp.jsonErr 503 "系統忙碌中，請稍後再試") := by
      simp [ClassifyImageV2, hs, ha]
    exact ⟨h1, by rw [h1]; rfl⟩
  · intro env f hf ho ha
    have h1 : ExtractText env = OcrResponse.busy := by
      simp [ExtractText, ExtractTextT, hf, ho, ha]
    exact ⟨h1, by rw [h1]; rfl⟩

/-- A V2 OCR oracle for a request that could not obtain a permit within
the 5 second wait. -/
def ocrBusyEnv : OcrEnv :=
  { formFile := some "receipt.png", openOk := true, acquired := false,
    tempDir := none, mkOutputOk := true, createOk := true, copyOk := true,
    cmdErr := false, deadlineExceeded := false, cmdOutput := "",
    readResultOk := true, parseOk := true, recScores := none,
    recTexts := none, visImage := none }

/-- C7 witness: two completed acquisitions reach permit count 2, within
the OCR capacity, and the request denied a permit gets 503. -/
theorem admission_bound_c7_witness :
    (2 ≤ MaxOCRConcurrency) ∧ (ExtractText ocrBusyEnv).status = 503 := by
  obtain ⟨-, h2, -, h4⟩ := admission_bound_c7
  exact ⟨h2 [ChanOp.send, ChanOp.send] 2 rfl,
    (h4 ocrBusyEnv "receipt.png" rfl rfl rfl).2⟩
